import Mathlib

/-!
Verification development for the ExacqMan repository.

The definitions below are shallow embeddings of the Python source:

* `src/exacqvision.py` — the NVR session client: the `get_video` export
  lifecycle (request → poll → download → delete-in-`finally`) and the
  `get_timestamps` clip-timestamp resolver;
* `src/exacqman.py` — the frame transform engine (`process_video`) and the
  compression stage (`compress_video`), together with the timezone
  conversion helpers.

Network calls, OpenCV calls and the filesystem are modelled by explicit
environments: each call site of `get_video` receives the result the
corresponding HTTP call would have produced, and the frame loop receives
the index at which per-frame processing raises (if any).  Machine-level
details (HTTP, codecs) are abstracted; control flow, arithmetic and
exception propagation follow the source line by line.
-/

namespace ExacqMan

/-- Exception values flowing through `get_video` (src/exacqvision.py).
`exacq` is `ExacqvisionError`, `timeout` its subclass
`ExacqvisionTimeoutError`, `reqlike` stands for the
`RequestException`/`ValueError`/`KeyError` family raised by the HTTP and
JSON layers, and `other` is any remaining Python exception. -/
inductive Exc where
  | exacq (msg : String)
  | timeout (msg : String)
  | reqlike (msg : String)
  | other (msg : String)
deriving Repr, DecidableEq

deriving instance DecidableEq for Except

/-- Python `isinstance(e, ExacqvisionError)`: `ExacqvisionTimeoutError` is a
subclass of `ExacqvisionError`. -/
def Exc.isExacqvisionError : Exc → Bool
  | .exacq _ => true
  | .timeout _ => true
  | .reqlike _ => false
  | .other _ => false

/-- The message carried by an exception (Python `str(e)`). -/
def Exc.msg : Exc → String
  | .exacq m => m
  | .timeout m => m
  | .reqlike m => m
  | .other m => m

/-- The stall-counter update of `get_video` (src/exacqvision.py lines
292-296): `retries += 1` when the freshly polled progress equals the
previous one, `retries = 0` otherwise. -/
def stallStep (updated progress retries : ℕ) : ℕ :=
  if updated = progress then retries + 1 else 0

/-- Outcome of the status-polling phase of `get_video`, together with the
total number of `export_status` calls issued (the initial poll included). -/
inductive PollOutcome where
  | ready (pollsIssued : ℕ)
  | timedOut (pollsIssued : ℕ)
  | exc (e : Exc) (pollsIssued : ℕ)
deriving Repr, DecidableEq

/-- The `while not ready_to_export and retries <= num_of_retries` loop of
`get_video` (src/exacqvision.py lines 288-301).  `stream` provides the
results of the successive `export_status` calls still to come; `progress`
and `retries` are the loop variables, and `polls` counts the status calls
already issued.  The loop body polls once, updates the stall counter with
`stallStep`, and stores the new progress; after the loop, `retries >
budget` raises `ExacqvisionTimeoutError` and otherwise the export is
ready.  The result is `none` when `stream` is exhausted although the loop
would poll again (the run is not determined by the supplied environment). -/
def pollLoop (budget : ℕ) (stream : List (Except Exc ℕ)) (progress retries polls : ℕ) :
    Option PollOutcome :=
  if ¬ progress = 100 ∧ retries ≤ budget then
    match stream with
    | [] => none
    | Except.error e :: _ => some (.exc e (polls + 1))
    | Except.ok u :: rest => pollLoop budget rest u (stallStep u progress retries) (polls + 1)
  else if budget < retries then some (.timedOut polls)
  else some (.ready polls)

/-- The whole polling phase of `get_video`: one initial `export_status`
call (line 286) whose progress seeds the loop with `retries = 0`. -/
def pollPhase (budget : ℕ) (polls : List (Except Exc ℕ)) : Option PollOutcome :=
  match polls with
  | [] => none
  | Except.error e :: _ => some (.exc e 1)
  | Except.ok p0 :: rest => pollLoop budget rest p0 0 1

theorem pollLoop_timedOut_of_replicate (budget p : ℕ) (hp : p ≠ 100) :
    ∀ (k retries polls : ℕ) (rest : List (Except Exc ℕ)), retries + k = budget + 1 →
      pollLoop budget (List.replicate k (Except.ok p) ++ rest) p retries polls =
        some (.timedOut (polls + k)) := by
  intro k
  induction k with
  | zero =>
    intro retries polls rest hk
    rw [pollLoop.eq_def]
    have h1 : ¬ (¬ p = 100 ∧ retries ≤ budget) := by
      intro ⟨_, hle⟩; omega
    rw [if_neg h1, if_pos (by omega : budget < retries)]
    rfl
  | succ n ih =>
    intro retries polls rest hk
    rw [pollLoop.eq_def]
    rw [if_pos ⟨hp, by omega⟩]
    simp only [List.replicate_succ, List.cons_append]
    rw [stallStep, if_pos rfl]
    have := ih (retries + 1) (polls + 1) rest (by omega)
    rw [this]
    have : polls + 1 + n = polls + (n + 1) := by omega
    rw [this]

/-- C1 (counterexample): with stall budget 5, a run whose first six status
polls all report progress 10 has NOT timed out after the 6th poll — the
loop demands a 7th poll (six identical polls leave the stall counter at 5,
and the loop re-enters because `retries <= num_of_retries` still holds);
with a 7th identical poll available the run times out after that 7th
poll.  This refutes the claim that the lifecycle transitions to TimedOut
after the 6th poll without issuing any further status poll. -/
theorem claim1_counterexample :
    pollPhase 5 (List.replicate 6 (Except.ok 10)) = none ∧
    pollPhase 5 (List.replicate 7 (Except.ok 10)) = some (.timedOut 7) := by
  exact ⟨by decide, by decide⟩

/-- C1 (amended): with a stall-retry budget `b`, if the first status poll
and the `b + 1` subsequent polls all report the same non-100 progress
value (`b + 2` identical polls in total, so seven polls for the reference
budget 5), the export lifecycle raises `ExacqvisionTimeoutError` after
the `(b + 2)`-nd poll, without issuing any further status poll (whatever
results `rest` would have followed); the stall counter increments exactly
when successive polls report the same progress value and resets to zero
on any change of progress (in particular on any increase). -/
theorem claim1_stall_timeout (b p : ℕ) (rest : List (Except Exc ℕ)) (hp : p ≠ 100) :
    pollPhase b (List.replicate (b + 2) (Except.ok p) ++ rest) =
      some (.timedOut (b + 2)) ∧
    (∀ u prog r, u = prog → stallStep u prog r = r + 1) ∧
    (∀ u prog r, u ≠ prog → stallStep u prog r = 0) := by
  refine ⟨?_, ?_, ?_⟩
  · have h : b + 2 = (b + 1) + 1 := by omega
    rw [h, List.replicate_succ, List.cons_append, pollPhase]
    have := pollLoop_timedOut_of_replicate b p hp (b + 1) 0 1 rest (by omega)
    rw [this]
    have h2 : 1 + (b + 1) = (b + 1) + 1 := by omega
    rw [h2]
  · intro u prog r h
    rw [stallStep, if_pos h]
  · intro u prog r h
    rw [stallStep, if_neg h]

/-- C1 (witness): the amended theorem at the reference budget 5 with the
spec's poll value 10 and nothing after the 7th poll. -/
theorem claim1_stall_timeout_witness :
    pollPhase 5 (List.replicate 7 (Except.ok 10) ++ []) = some (.timedOut 7) ∧
    (∀ u prog r, u = prog → stallStep u prog r = r + 1) ∧
    (∀ u prog r, u ≠ prog → stallStep u prog r = 0) :=
  claim1_stall_timeout 5 10 [] (by decide)

/-- Environment for one run of `get_video` (src/exacqvision.py lines
262-310): the results the four kinds of sub-calls would produce.
`export_request` itself guarantees a non-empty export ID (it raises
`ExacqvisionError` when the response carries none, lines 180-182), so a
successful `exportRequest` carries the ID string. -/
structure GetVideoEnv where
  exportRequest : Except Exc String
  statusPolls : List (Except Exc ℕ)
  download : Except Exc String
  delete : Except Exc String
deriving Repr

/-- What a finished `get_video` run delivers to its caller. -/
inductive GetVideoResult where
  | ok (filename : String)
  | raised (e : Exc)
deriving Repr, DecidableEq

/-- The body of `get_video`'s `try` block (lines 282-303): request the
export, poll until ready or stalled, raise
`ExacqvisionTimeoutError` when `retries > num_of_retries`, otherwise
return `export_download`'s result.  `none` when the poll stream of the
environment does not determine the run. -/
def getVideoBody (budget : ℕ) (env : GetVideoEnv) : Option (Except Exc String) :=
  match env.exportRequest with
  | Except.error e => some (Except.error e)
  | Except.ok id =>
    match pollPhase budget env.statusPolls with
    | none => none
    | some (.exc e _) => some (Except.error e)
    | some (.timedOut _) =>
        some (Except.error (Exc.timeout
          ("Export " ++ id ++ " progress stalled for too long.")))
    | some (.ready _) => some env.download

/-- The `except ExacqvisionError` clause of `get_video` (lines 305-306):
an `ExacqvisionError` (its subclass `ExacqvisionTimeoutError` included) is
re-raised wrapped as ExacqvisionError with prefixed message; any other
exception propagates unchanged. -/
def exceptClause : Except Exc String → Except Exc String
  | Except.error e =>
      if e.isExacqvisionError then
        Except.error (Exc.exacq ("Failed to get video: " ++ e.msg))
      else Except.error e
  | Except.ok v => Except.ok v

/-- A `try` body result seen as what the caller receives. -/
def toResult : Except Exc String → GetVideoResult
  | Except.ok f => GetVideoResult.ok f
  | Except.error e => GetVideoResult.raised e

/-- The export ID as bound by `export_id = self.export_request(...)`
(line 282): `none` when `export_request` raised before returning. -/
def exportIdOf : Except Exc String → Option String
  | Except.ok id => some id
  | Except.error _ => none

/-- The `finally` clause of `get_video` (lines 307-310) applied to the
`try`/`except` result `body`: when `export_id` is truthy the run calls
`export_delete` exactly once; in Python an exception raised inside a
`finally` block replaces both an in-flight exception and a pending return
value, so a failing delete determines what the caller sees.  The second
component counts the `export_delete` calls issued. -/
def runFinally (exportId : Option String) (delete : Except Exc String)
    (body : Except Exc String) : GetVideoResult × ℕ :=
  match exportId with
  | some id =>
    if id ≠ "" then
      match delete with
      | Except.ok _ => (toResult (exceptClause body), 1)
      | Except.error d => (GetVideoResult.raised d, 1)
    else (toResult (exceptClause body), 0)
  | none => (toResult (exceptClause body), 0)

/-- `get_video` (lines 262-310): the `try` body, the
`except ExacqvisionError` wrapper and the unconditional `finally`.
`none` when the environment does not determine the run (poll stream
exhausted while the loop would still be polling). -/
def get_video (budget : ℕ) (env : GetVideoEnv) : Option (GetVideoResult × ℕ) :=
  (getVideoBody budget env).map (runFinally (exportIdOf env.exportRequest) env.delete)

theorem runFinally_deletes (req : Except Exc String) (delete : Except Exc String)
    (body : Except Exc String) :
    (runFinally (exportIdOf req) delete body).2 =
      (match req with
       | Except.ok id => if id = "" then 0 else 1
       | Except.error _ => 0) := by
  cases req with
  | error e => rfl
  | ok id =>
    by_cases hid : id = ""
    · simp [runFinally, exportIdOf, hid]
    · cases delete with
      | ok r => simp [runFinally, exportIdOf, hid]
      | error d => simp [runFinally, exportIdOf, hid]

/-- C2: every completed `get_video` run that obtained a (non-empty) export
ID issues the `export_delete` call exactly once — on the successful
download path, on the stall-timeout path, on a download failure and on any
exception raised mid-sequence — and a run that never obtained an export ID
issues no delete call. -/
theorem claim2_delete_exactly_once (budget : ℕ) (env : GetVideoEnv)
    (res : GetVideoResult) (deletes : ℕ)
    (h : get_video budget env = some (res, deletes)) :
    deletes = (match env.exportRequest with
               | Except.ok id => if id = "" then 0 else 1
               | Except.error _ => 0) := by
  unfold get_video at h
  rcases Option.map_eq_some'.mp h with ⟨body, _hb, hf⟩
  have := runFinally_deletes env.exportRequest env.delete body
  rw [hf] at this
  exact this

/-- C2 (witness): a concrete successful run — export ID "E1", polls
10 then 100, download succeeds, delete succeeds — issues exactly one
delete call. -/
theorem claim2_delete_exactly_once_witness :
    (1 : ℕ) = (match (Except.ok "E1" : Except Exc String) with
               | Except.ok id => if id = "" then 0 else 1
               | Except.error _ => 0) :=
  claim2_delete_exactly_once 5
    ⟨Except.ok "E1", [Except.ok 10, Except.ok 100], Except.ok "file.mp4", Except.ok ""⟩
    (GetVideoResult.ok "file.mp4") 1 (by decide)

/-- C3 (counterexample): a run whose export stalls (seven polls at 10,
budget 5) and whose `export_delete` call raises a connection error.  The
`try` body raised `ExacqvisionTimeoutError`, but the caller receives the
delete failure instead: the cleanup failure replaces the original
terminal error (and nothing logs it), contradicting the claim that the
original error still propagates. -/
theorem claim3_counterexample :
    get_video 5 ⟨Except.ok "E1", List.replicate 7 (Except.ok 10),
        Except.ok "file.mp4", Except.error (Exc.reqlike "connection reset")⟩ =
      some (GetVideoResult.raised (Exc.reqlike "connection reset"), 1) ∧
    getVideoBody 5 ⟨Except.ok "E1", List.replicate 7 (Except.ok 10),
        Except.ok "file.mp4", Except.error (Exc.reqlike "connection reset")⟩ =
      some (Except.error (Exc.timeout "Export E1 progress stalled for too long.")) ∧
    GetVideoResult.raised (Exc.reqlike "connection reset") ≠
      GetVideoResult.raised
        (Exc.exacq "Failed to get video: Export E1 progress stalled for too long.") := by
  exact ⟨by decide, by decide, by decide⟩

/-- C3 (amended): whenever a completed `get_video` run obtained an export
ID and the cleanup `export_delete` call fails, the delete failure is what
reaches the caller — it replaces (masks) whatever the `try` body produced,
be that the downloaded filename or an in-flight error, and it is not
logged; the delete call is still issued exactly once. -/
theorem claim3_delete_failure_masks (budget : ℕ) (env : GetVideoEnv)
    (id : String) (d : Exc) (res : GetVideoResult) (deletes : ℕ)
    (hreq : env.exportRequest = Except.ok id) (hid : id ≠ "")
    (hdel : env.delete = Except.error d)
    (h : get_video budget env = some (res, deletes)) :
    res = GetVideoResult.raised d ∧ deletes = 1 := by
  unfold get_video at h
  rcases Option.map_eq_some'.mp h with ⟨body, _hb, hf⟩
  rw [hreq, hdel] at hf
  simp only [runFinally, exportIdOf, if_pos hid] at hf
  exact ⟨(Prod.mk.injEq _ _ _ _ ▸ hf).1.symm, (Prod.mk.injEq _ _ _ _ ▸ hf).2.symm⟩

/-- C3 (witness): the amended theorem at a concrete run — export ready at
once, download succeeds, delete raises — the caller sees the delete
failure in place of the successful filename. -/
theorem claim3_delete_failure_masks_witness :
    GetVideoResult.raised (Exc.reqlike "boom") = GetVideoResult.raised (Exc.reqlike "boom") ∧
    (1 : ℕ) = 1 :=
  claim3_delete_failure_masks 5
    ⟨Except.ok "E1", [Except.ok 100], Except.ok "file.mp4", Except.error (Exc.reqlike "boom")⟩
    "E1" (Exc.reqlike "boom") (GetVideoResult.raised (Exc.reqlike "boom")) 1
    rfl (by decide) rfl (by decide)

/-- The inner `generate_time_range` of `get_timestamps` (src/exacqvision.py
lines 331-344): all whole seconds from `start_time` to `stop_time`
inclusive, empty when `start_time > stop_time` (the `while start <= stop`
loop).  Instants are modelled as seconds on a single consistent timeline
(the local timezone of the session, to which the code converts every clip
boundary before comparing). -/
def generate_time_range (start_time stop_time : ℕ) : List ℕ :=
  (List.range (stop_time + 1 - start_time)).map (start_time + ·)

/-- `dict.fromkeys` de-duplication (line 353) with an explicit accumulator
of already-seen keys: keeps the first occurrence of each element,
preserving order. -/
def fromKeysAux (seen : List ℕ) : List ℕ → List ℕ
  | [] => []
  | x :: xs => if x ∈ seen then fromKeysAux seen xs else x :: fromKeysAux (x :: seen) xs

/-- `list(dict.fromkeys(...))`: stable first-seen de-duplication. -/
def dictFromKeys (l : List ℕ) : List ℕ := fromKeysAux [] l

/-- `get_timestamps` (lines 313-362) given the clips the search returned:
stretch every clip into per-second instants, flatten in clip order,
de-duplicate preserving first-seen order, and filter to the requested
`[start, stop]` window. -/
def get_timestamps (clips : List (ℕ × ℕ)) (start stop : ℕ) : List ℕ :=
  let ranged_timestamps := clips.map (fun x => generate_time_range x.1 x.2)
  let flattened_timestamps := ranged_timestamps.flatten
  let unique_timestamps := dictFromKeys flattened_timestamps
  unique_timestamps.filter (fun x => start ≤ x ∧ x ≤ stop)

theorem mem_generate_time_range {s e x : ℕ} :
    x ∈ generate_time_range s e ↔ s ≤ x ∧ x ≤ e := by
  simp only [generate_time_range, List.mem_map, List.mem_range]
  constructor
  · rintro ⟨i, hi, rfl⟩; omega
  · rintro ⟨h1, h2⟩; exact ⟨x - s, by omega, by omega⟩

theorem pairwise_lt_generate_time_range (s e : ℕ) :
    (generate_time_range s e).Pairwise (· < ·) := by
  refine List.Pairwise.map _ ?_ (List.pairwise_lt_range _)
  intro a b hab
  omega

theorem mem_of_mem_fromKeysAux {seen l : List ℕ} {x : ℕ}
    (h : x ∈ fromKeysAux seen l) : x ∈ l ∧ x ∉ seen := by
  induction l generalizing seen with
  | nil => simp [fromKeysAux] at h
  | cons a t ih =>
    rw [fromKeysAux] at h
    by_cases ha : a ∈ seen
    · rw [if_pos ha] at h
      have := ih h
      exact ⟨List.mem_cons_of_mem _ this.1, this.2⟩
    · rw [if_neg ha] at h
      rcases List.mem_cons.mp h with rfl | hx
      · exact ⟨List.mem_cons_self _ _, ha⟩
      · have := ih hx
        exact ⟨List.mem_cons_of_mem _ this.1,
          fun hs => this.2 (List.mem_cons_of_mem _ hs)⟩

theorem fromKeysAux_sublist (seen l : List ℕ) : List.Sublist (fromKeysAux seen l) l := by
  induction l generalizing seen with
  | nil => simp [fromKeysAux]
  | cons a t ih =>
    rw [fromKeysAux]
    by_cases ha : a ∈ seen
    · rw [if_pos ha]; exact (ih seen).cons _
    · rw [if_neg ha]; exact (ih (a :: seen)).cons₂ _

theorem nodup_fromKeysAux (seen l : List ℕ) : (fromKeysAux seen l).Nodup := by
  induction l generalizing seen with
  | nil => simp [fromKeysAux]
  | cons a t ih =>
    rw [fromKeysAux]
    by_cases ha : a ∈ seen
    · rw [if_pos ha]; exact ih seen
    · rw [if_neg ha]
      refine List.Nodup.cons ?_ (ih (a :: seen))
      intro hmem
      exact (mem_of_mem_fromKeysAux hmem).2 (List.mem_cons_self _ _)

theorem fromKeysAux_congr {seen1 seen2 : List ℕ} (l : List ℕ)
    (h : ∀ a, a ∈ seen1 ↔ a ∈ seen2) : fromKeysAux seen1 l = fromKeysAux seen2 l := by
  induction l generalizing seen1 seen2 with
  | nil => rfl
  | cons a t ih =>
    rw [fromKeysAux, fromKeysAux]
    by_cases ha : a ∈ seen1
    · rw [if_pos ha, if_pos ((h a).mp ha)]
      exact ih h
    · rw [if_neg ha, if_neg (fun hb => ha ((h a).mpr hb))]
      refine congrArg _ (ih ?_)
      intro b
      simp only [List.mem_cons]
      exact or_congr Iff.rfl (h b)

theorem fromKeysAux_append (seen l1 l2 : List ℕ) :
    fromKeysAux seen (l1 ++ l2) = fromKeysAux seen l1 ++ fromKeysAux (l1 ++ seen) l2 := by
  induction l1 generalizing seen with
  | nil => simp [fromKeysAux]
  | cons a t ih =>
    simp only [List.cons_append, fromKeysAux, List.append_eq]
    by_cases ha : a ∈ seen
    · rw [if_pos ha, if_pos ha, ih seen]
      refine congrArg _ (fromKeysAux_congr l2 ?_)
      intro b
      simp only [List.mem_append, List.mem_cons]
      by_cases hb : b = a
      · subst hb; tauto
      · tauto
    · rw [if_neg ha, if_neg ha, ih (a :: seen), List.cons_append]
      refine congrArg _ (congrArg _ (fromKeysAux_congr l2 ?_))
      intro b
      simp only [List.mem_append, List.mem_cons]
      tauto

theorem sorted_fromKeysAux_flatten (clips : List (ℕ × ℕ)) :
    ∀ seen : List ℕ, clips.Pairwise (fun a b => a.1 ≤ b.1) →
      List.Pairwise (· < ·)
        (fromKeysAux seen (clips.map (fun x => generate_time_range x.1 x.2)).flatten) := by
  induction clips with
  | nil => intro seen _; simp [fromKeysAux]
  | cons c rest ih =>
    intro seen hp
    rw [List.map_cons, List.flatten_cons, fromKeysAux_append, List.pairwise_append]
    refine ⟨?_, ?_, ?_⟩
    · exact List.Pairwise.sublist (fromKeysAux_sublist seen _)
        (pairwise_lt_generate_time_range c.1 c.2)
    · exact ih _ (List.Pairwise.of_cons hp)
    · intro a ha b hb
      have ha' := mem_of_mem_fromKeysAux ha
      have hb' := mem_of_mem_fromKeysAux hb
      have hac : c.1 ≤ a ∧ a ≤ c.2 := mem_generate_time_range.mp ha'.1
      obtain ⟨lb, hlb, hbin⟩ := List.mem_flatten.mp hb'.1
      obtain ⟨c', hc', rfl⟩ := List.mem_map.mp hlb
      have hbc : c'.1 ≤ b ∧ b ≤ c'.2 := mem_generate_time_range.mp hbin
      have hcc : c.1 ≤ c'.1 := (List.pairwise_cons.mp hp).1 c' hc'
      have hnb : ¬ (c.1 ≤ b ∧ b ≤ c.2) := by
        intro hmem
        exact hb'.2 (List.mem_append_left _ (mem_generate_time_range.mpr hmem))
      omega

/-- C4 (counterexample): the resolver's output need not be non-decreasing.
When the search returns clips out of chronological order — here the clip
[10, 11] before the clip [0, 1] — the stable first-seen de-duplication
preserves clip order and the resolved sequence is [10, 11, 0, 1], which is
not non-decreasing. -/
theorem claim4_counterexample :
    get_timestamps [(10, 11), (0, 1)] 0 100 = [10, 11, 0, 1] ∧
    ¬ List.Pairwise (· ≤ ·) (get_timestamps [(10, 11), (0, 1)] 0 100) := by
  exact ⟨by decide, by decide⟩

/-- C4 (amended): for every search result, the resolver's output is
duplicate-free and fully contained in the requested [start, stop] window;
it is moreover (strictly) increasing whenever the clips arrive in
chronological order of their start instants — de-duplication is stable
first-seen order, not sorting, so out-of-order clips may produce an
out-of-order sequence; and for two overlapping chronological clips
[T0, T0+2s] and [T0+1s, T0+3s] the resolved sequence is exactly
[T0, T0+1s, T0+2s, T0+3s] with each instant appearing once. -/
theorem claim4_resolver_invariants (clips : List (ℕ × ℕ)) (start stop : ℕ) :
    (get_timestamps clips start stop).Nodup ∧
    (∀ t ∈ get_timestamps clips start stop, start ≤ t ∧ t ≤ stop) ∧
    (clips.Pairwise (fun a b => a.1 ≤ b.1) →
      List.Pairwise (· < ·) (get_timestamps clips start stop)) ∧
    (∀ T0 : ℕ, get_timestamps [(T0, T0 + 2), (T0 + 1, T0 + 3)] T0 (T0 + 3) =
      [T0, T0 + 1, T0 + 2, T0 + 3]) := by
  refine ⟨?_, ?_, ?_, ?_⟩
  · exact List.Nodup.filter _ (nodup_fromKeysAux [] _)
  · intro t ht
    have := List.of_mem_filter ht
    simpa using this
  · intro hmono
    exact List.Pairwise.filter _ (sorted_fromKeysAux_flatten clips [] hmono)
  · intro T0
    have h1 : generate_time_range T0 (T0 + 2) = [T0, T0 + 1, T0 + 2] := by
      have h3 : T0 + 2 + 1 - T0 = 3 := by omega
      rw [generate_time_range, h3]; rfl
    have h2 : generate_time_range (T0 + 1) (T0 + 3) = [T0 + 1, T0 + 2, T0 + 3] := by
      have h3 : T0 + 3 + 1 - (T0 + 1) = 3 := by omega
      rw [generate_time_range, h3]; rfl
    simp only [get_timestamps, List.map_cons, List.map_nil, h1, h2, List.flatten_cons,
      List.flatten_nil, List.append_nil, List.cons_append, List.nil_append, dictFromKeys]
    simp +arith [fromKeysAux]

/-- The `while success:` frame loop of `process_video` (src/exacqman.py
lines 395-419).  `count` is the loop counter (the zero-based index of the
frame being processed), `remaining` the number of frames the reader still
delivers, and `failAt` the frame index at which per-frame processing
(crop slicing, overlay rendering, writing) raises, if any — `none` for a
clean run.  A frame is written to the output exactly when
`count % multiplier == 0` (line 414), before the next read and the
`count += 1`.  Returns the written zero-based indices and the propagating
exception, if one was raised. -/
def frameLoop (multiplier : ℕ) (failAt : Option ℕ) : ℕ → ℕ → List ℕ × Option String
  | _, 0 => ([], none)
  | count, remaining + 1 =>
    if failAt = some count then ([], some "frame processing failed")
    else
      let rest := frameLoop multiplier failAt (count + 1) remaining
      ((if count % multiplier = 0 then [count] else []) ++ rest.1, rest.2)

/-- The result of `process_video`'s main loop together with the release
calls. -/
structure FrameRun where
  written : List ℕ
  error : Option String
  writerReleased : Bool
  readerReleased : Bool
deriving Repr, DecidableEq

/-- `process_video`'s frame loop followed by `pbar.close();
writer.release(); vid.release()` (lines 421-423): the release lines run
only after the loop exits normally; the source has no `try`/`finally`
around the loop, so an exception raised mid-loop propagates without
releasing either the writer or the reader. -/
def process_video_frames (multiplier totalFrames : ℕ) (failAt : Option ℕ) : FrameRun :=
  match frameLoop multiplier failAt 0 totalFrames with
  | (written, none) => ⟨written, none, true, true⟩
  | (written, some e) => ⟨written, some e, false, false⟩

/-- The frames a clean (exception-free) run writes. -/
def writtenFrames (multiplier totalFrames : ℕ) : List ℕ :=
  (process_video_frames multiplier totalFrames none).written

/-- The crop-validation step of `process_video` (lines 370-378): when the
configured region exceeds the frame, both extents are clamped
(`crop_width = min(crop_width, width - x)`,
`crop_height = min(crop_height, height - y)`) with a warning; Python
integers are modelled as ℤ. -/
def adjustCrop (width height : ℤ) (cd : (ℤ × ℤ) × (ℤ × ℤ)) : (ℤ × ℤ) × (ℤ × ℤ) :=
  if cd.1.1 + cd.2.1 > width ∨ cd.1.2 + cd.2.2 > height then
    (cd.1, (min cd.2.1 (width - cd.1.1), min cd.2.2 (height - cd.1.2)))
  else cd

/-- The cropping setup of `process_video` (lines 365-381): with cropping
enabled, a missing region is obtained once from the interactive selector
(`select_crop`, modelled by the environment value `selected`) and written
back into `settings.crop_dimensions`; the region is then clamped against
the first frame's dimensions — into local variables only, the settings
keep the unclamped region.  Without cropping, the full frame is used and
the settings are untouched.  Returns the effective ((x, y), (w, h)) used
by the loop and the writer, and the `settings.crop_dimensions` value
after setup. -/
def cropSetup (crop : Bool) (crop_dimensions : Option ((ℤ × ℤ) × (ℤ × ℤ)))
    (selected : (ℤ × ℤ) × (ℤ × ℤ)) (width height : ℤ) :
    ((ℤ × ℤ) × (ℤ × ℤ)) × Option ((ℤ × ℤ) × (ℤ × ℤ)) :=
  if crop then
    let cd := crop_dimensions.getD selected
    (adjustCrop width height cd, some cd)
  else (((0, 0), (width, height)), crop_dimensions)

/-- The output frame dimensions `process_video` hands to `cv2.VideoWriter`
(line 392): the effective — possibly clamped — crop width and height. -/
def transformOutputDims (crop : Bool) (crop_dimensions : Option ((ℤ × ℤ) × (ℤ × ℤ)))
    (selected : (ℤ × ℤ) × (ℤ × ℤ)) (width height : ℤ) : ℤ × ℤ :=
  (cropSetup crop crop_dimensions selected width height).1.2

/-- `compress_video`'s quality table and crop override (src/exacqman.py
lines 449-468): bitrate and resolution from the fixed table, an unknown
quality raises `ValueError`, and with `settings.crop` set the resolution
is replaced by `settings.crop_dimensions[1]` — the configured (width,
height), which subscripting raises `TypeError` on when the settings hold
no region. -/
def compress_params (quality : String) (crop : Bool)
    (crop_dimensions : Option ((ℤ × ℤ) × (ℤ × ℤ))) : Except String (String × (ℤ × ℤ)) :=
  match (if quality = "low" then some ("250K", ((1280 : ℤ), (720 : ℤ)))
         else if quality = "medium" then some ("500K", ((1920 : ℤ), (1080 : ℤ)))
         else if quality = "high" then some ("1M", ((1920 : ℤ), (1080 : ℤ)))
         else none) with
  | none => Except.error "Compression quality must be one of: 'low', 'medium', 'high'"
  | some (bitrate, resolution) =>
    if crop then
      match crop_dimensions with
      | some cd => Except.ok (bitrate, cd.2)
      | none => Except.error "TypeError: 'NoneType' object is not subscriptable"
    else Except.ok (bitrate, resolution)

/-- `cv2.getTextSize`: requires an actual string — Python raises
`TypeError` when the text argument is `None`.  The returned size is an
abstract model (proportional to the text length); only definedness
matters to the claims below. -/
def cvGetTextSize (text : Option String) (fontScale : ℚ) (thickness : ℕ) :
    Except String (ℚ × ℚ) :=
  match text with
  | none => Except.error "TypeError: bad argument type for built-in operation"
  | some s => Except.ok (fontScale * thickness * s.length, fontScale * thickness)

/-- `calculate_xy_text_position` of `process_video` (lines 330-339):
text size at the dynamic font scale, then centered horizontally with a
10% bottom margin (coordinates modelled over ℚ). -/
def calculate_xy_text_position (video_height video_width : ℚ)
    (timestamp_string : Option String) (font_scale : ℚ) (font_weight : ℕ) :
    Except String (ℚ × ℚ) :=
  match cvGetTextSize timestamp_string font_scale font_weight with
  | Except.error e => Except.error e
  | Except.ok (text_width, _text_height) =>
      Except.ok ((video_width - text_width) / 2, video_height - video_height * (1 / 10))

/-- The timestamp index of the overlay step (line 406):
`int(frame_position / total_frames * (number_of_timestamps - 1))` — real
division, and `int` truncation of the non-negative value is the floor. -/
def overlayIndex (frame_position total_frames number_of_timestamps : ℕ) : ℤ :=
  ⌊(frame_position : ℚ) / (total_frames : ℚ) * ((number_of_timestamps : ℚ) - 1)⌋

/-- The timestamp/caption overlay block of the frame loop (lines
404-412) for one frame.  Nothing is rendered when the timestamp list is
empty (`if timestamps:` is falsy).  Otherwise the indexed timestamp is
looked up and rendered, then the caption position is computed by passing
`settings.caption` to `calculate_xy_text_position` (line 411) — a `None`
caption reaches `cv2.getTextSize` there and raises `TypeError` — and the
caption is drawn with `cv2.putText` (line 412), which likewise needs a
string. -/
def renderOverlays (caption : Option String) (font_weight : ℕ) (timestamps : List ℕ)
    (crop_width crop_height : ℚ) (font_scale : ℚ)
    (frame_position total_frames : ℕ) : Except String Unit :=
  if timestamps.isEmpty then Except.ok ()
  else
    match timestamps[(overlayIndex frame_position total_frames timestamps.length).toNat]? with
    | none => Except.error "IndexError: list index out of range"
    | some current_timestamp =>
      match calculate_xy_text_position crop_height crop_width
          (some (toString current_timestamp)) font_scale font_weight with
      | Except.error e => Except.error e
      | Except.ok _pos =>
        match calculate_xy_text_position (crop_height * (85 / 100)) crop_width caption
            (font_scale * (8 / 10)) font_weight with
        | Except.error e => Except.error e
        | Except.ok _caption_pos =>
          match caption with
          | none => Except.error "TypeError: bad argument type for built-in operation"
          | some _ => Except.ok ()

/-- A timezone in the sense of Python `zoneinfo` (PEP 495, fold = 0):
`offsetOfLocal w` is the offset `t.replace(tzinfo=tz).utcoffset()`
assigns to the naive wall-clock time `w`, and `offsetAtInstant i` the
zone's UTC offset in effect at the UTC instant `i`.  Offsets in seconds;
datetimes as seconds on the respective wall clock. -/
structure TZ where
  offsetOfLocal : ℤ → ℤ
  offsetAtInstant : ℤ → ℤ

/-- `convert_local_to_GMT` (src/exacqvision.py lines 100-109):
`time.replace(tzinfo=self.timezone)` keeps the wall-clock fields and
attaches the local zone; `astimezone(ZoneInfo('GMT'))` preserves the
instant, and a GMT wall clock equals the instant. -/
def convert_local_to_GMT (tz : TZ) (t : ℤ) : ℤ := t - tz.offsetOfLocal t

/-- `convert_GMT_to_local` (lines 88-97): `replace(tzinfo=ZoneInfo('GMT'))`
is the identity on the GMT-aware value produced by `convert_local_to_GMT`;
`astimezone(self.timezone)` preserves the instant and yields the local
wall clock in effect at it. -/
def convert_GMT_to_local (tz : TZ) (i : ℤ) : ℤ := i + tz.offsetAtInstant i

/-- An America/New_York-like zone around its spring-forward transition,
with instants in seconds relative to the transition instant (07:00 UTC on
the transition day): UTC offset −5h (−18000s) before, −4h (−14400s)
after.  Local wall times before 03:00 post-transition (−14400 relative to
the transition expressed on the local clock) carry the pre-transition
offset under fold = 0 — this includes the nonexistent 02:00–03:00 gap. -/
def nySpring : TZ :=
  ⟨fun w => if w < -14400 then -18000 else -14400,
   fun i => if i < 0 then -18000 else -14400⟩

theorem frameLoop_none_eq (m : ℕ) :
    ∀ (k c : ℕ), frameLoop m none c k =
      ((List.range' c k).filter (fun i => i % m = 0), none) := by
  intro k
  induction k with
  | zero => intro c; rfl
  | succ n ih =>
    intro c
    rw [frameLoop]
    rw [if_neg (by simp)]
    rw [List.range'_succ, List.filter_cons, ih (c + 1)]
    by_cases h : c % m = 0
    · simp [h]
    · simp [h]

theorem writtenFrames_eq_filter (m N : ℕ) :
    writtenFrames m N = (List.range N).filter (fun i => i % m = 0) := by
  rw [writtenFrames, process_video_frames, frameLoop_none_eq m N 0, List.range_eq_range']

theorem length_filter_mod_range (m : ℕ) (hm : 1 ≤ m) :
    ∀ N : ℕ, ((List.range N).filter (fun i => i % m = 0)).length = (N + m - 1) / m := by
  intro N
  induction N with
  | zero =>
    simp [Nat.div_eq_of_lt (by omega : m - 1 < m)]
  | succ n ih =>
    rw [List.range_succ, List.filter_append, List.length_append, ih]
    have hs : n + 1 + m - 1 = (n + m - 1) + 1 := by omega
    rw [hs, Nat.succ_div]
    have hd : (m ∣ n + m - 1 + 1) ↔ (m ∣ n) := by
      have he : n + m - 1 + 1 = n + m := by omega
      rw [he]
      constructor
      · intro h
        have := Nat.dvd_sub' h (dvd_refl m)
        simpa using this
      · intro h
        exact Nat.dvd_add h (dvd_refl m)
    by_cases h : n % m = 0
    · rw [if_pos (hd.mpr (Nat.dvd_of_mod_eq_zero h))]
      simp [h]
    · rw [if_neg (fun hdvd => h (Nat.mod_eq_zero_of_dvd (hd.mp hdvd)))]
      simp [h]

/-- C5: for every positive multiplier m and source with N ≥ 1 frames, the
transform engine writes exactly ceil(N / m) = (N + m − 1) / m frames; a
frame with zero-based index i is written iff i mod m = 0; in particular
multiplier 10 on a 300-frame source yields 30 output frames, and with
cropping disabled the output keeps the source resolution. -/
theorem claim5_output_frame_count (m N : ℕ) (hm : 1 ≤ m) (_hN : 1 ≤ N) :
    (writtenFrames m N).length = (N + m - 1) / m ∧
    (∀ i : ℕ, i ∈ writtenFrames m N ↔ i < N ∧ i % m = 0) ∧
    (writtenFrames 10 300).length = 30 ∧
    (∀ (cropDims : Option ((ℤ × ℤ) × (ℤ × ℤ))) (sel : (ℤ × ℤ) × (ℤ × ℤ)) (w h : ℤ),
      transformOutputDims false cropDims sel w h = (w, h)) := by
  refine ⟨?_, ?_, ?_, ?_⟩
  · rw [writtenFrames_eq_filter]
    exact length_filter_mod_range m hm N
  · intro i
    rw [writtenFrames_eq_filter]
    simp [List.mem_filter]
  · have := length_filter_mod_range 10 (by omega) 300
    rw [writtenFrames_eq_filter]
    rw [this]
  · intro cropDims sel w h
    rfl

/-- C5 (witness): the amended-free theorem at the spec's scenario,
multiplier 10 on a 300-frame source. -/
theorem claim5_output_frame_count_witness :
    (writtenFrames 10 300).length = (300 + 10 - 1) / 10 ∧
    (∀ i : ℕ, i ∈ writtenFrames 10 300 ↔ i < 300 ∧ i % 10 = 0) ∧
    (writtenFrames 10 300).length = 30 ∧
    (∀ (cropDims : Option ((ℤ × ℤ) × (ℤ × ℤ))) (sel : (ℤ × ℤ) × (ℤ × ℤ)) (w h : ℤ),
      transformOutputDims false cropDims sel w h = (w, h)) :=
  claim5_output_frame_count 10 300 (by decide) (by decide)

/-- C6 (counterexample): a cropped run whose configured region
((0,0),(2000,2000)) exceeds a 1280×720 frame: the transform clamps and
writes 1280×720 frames, but the compression stage targets the unclamped
configured (2000, 2000) — not the dimensions of the frames the transform
wrote. -/
theorem claim6_counterexample :
    transformOutputDims true (some ((0, 0), (2000, 2000))) ((0, 0), (0, 0)) 1280 720 =
      (1280, 720) ∧
    compress_params "low" true (some ((0, 0), (2000, 2000))) =
      Except.ok ("250K", (2000, 2000)) ∧
    ((2000 : ℤ), (2000 : ℤ)) ≠ ((1280 : ℤ), (720 : ℤ)) := by
  exact ⟨by decide, by decide, by decide⟩

/-- C6 (amended): for every cropped run the compression stage's target
resolution equals the *configured* crop dimensions
(`settings.crop_dimensions[1]`); these equal the transform's actual
output dimensions whenever the region fits inside the frame bounds, but a
clamped run keeps the unclamped configured dimensions, which differ from
the written frames'; with cropping disabled, quality "low" targets
250 Kbps at 1280×720. -/
theorem claim6_crop_resolution_override (quality : String)
    (cropDims : Option ((ℤ × ℤ) × (ℤ × ℤ))) (cd selected : (ℤ × ℤ) × (ℤ × ℤ))
    (width height : ℤ) (bitrate : String) (res : ℤ × ℤ)
    (hcd : cropDims = some cd)
    (hw : cd.1.1 + cd.2.1 ≤ width) (hh : cd.1.2 + cd.2.2 ≤ height)
    (hok : compress_params quality true cropDims = Except.ok (bitrate, res)) :
    res = cd.2 ∧
    transformOutputDims true cropDims selected width height = cd.2 ∧
    compress_params "low" false cropDims = Except.ok ("250K", (1280, 720)) := by
  refine ⟨?_, ?_, ?_⟩
  · rw [compress_params] at hok
    by_cases h1 : quality = "low"
    · rw [if_pos h1, hcd] at hok
      simp_all
    · by_cases h2 : quality = "medium"
      · rw [if_neg h1, if_pos h2, hcd] at hok
        simp_all
      · by_cases h3 : quality = "high"
        · rw [if_neg h1, if_neg h2, if_pos h3, hcd] at hok
          simp_all
        · rw [if_neg h1, if_neg h2, if_neg h3] at hok
          exact absurd hok (by simp)
  · simp only [transformOutputDims, cropSetup, hcd, if_true, Option.getD_some]
    rw [adjustCrop, if_neg (by omega)]
  · rw [compress_params, if_pos rfl]
    simp

/-- C6 (witness): a cropped run with quality "low" and an in-bounds
region ((0,0),(100,100)) on a 1280×720 frame: compression targets the
configured (100,100), which equals the dimensions the transform wrote. -/
theorem claim6_crop_resolution_override_witness :
    ((100 : ℤ), (100 : ℤ)) = (((0, 0), ((100 : ℤ), (100 : ℤ))) : (ℤ × ℤ) × (ℤ × ℤ)).2 ∧
    transformOutputDims true (some ((0, 0), (100, 100))) ((0, 0), (0, 0)) 1280 720 =
      (((0, 0), ((100 : ℤ), (100 : ℤ))) : (ℤ × ℤ) × (ℤ × ℤ)).2 ∧
    compress_params "low" false (some ((0, 0), (100, 100))) =
      Except.ok ("250K", (1280, 720)) :=
  claim6_crop_resolution_override "low" (some ((0, 0), (100, 100)))
    ((0, 0), (100, 100)) ((0, 0), (0, 0)) 1280 720 "250K" (100, 100)
    rfl (by decide) (by decide) (by decide)

/-- C7 (counterexample): a 3-frame run with multiplier 1 whose frame
processing raises at frame index 1: the exception propagates and neither
the writer nor the reader is released — `writer.release()` and
`vid.release()` (lines 422-423) sit after the loop with no
`try`/`finally`, so they are skipped on the error path. -/
theorem claim7_counterexample :
    (process_video_frames 1 3 (some 1)).error = some "frame processing failed" ∧
    (process_video_frames 1 3 (some 1)).writerReleased = false ∧
    (process_video_frames 1 3 (some 1)).readerReleased = false := by
  exact ⟨by decide, by decide, by decide⟩

/-- C7 (amended): the video reader and the video writer are released
exactly when the frame loop completes without an exception; a mid-loop
failure propagates with both handles unreleased. -/
theorem claim7_release_on_normal_exit_only (m N : ℕ) (failAt : Option ℕ) :
    (process_video_frames m N failAt).writerReleased =
      (process_video_frames m N failAt).error.isNone ∧
    (process_video_frames m N failAt).readerReleased =
      (process_video_frames m N failAt).error.isNone := by
  rw [process_video_frames]
  rcases frameLoop m failAt 0 N with ⟨w, e⟩
  cases e <;> simp

/-- C8: with a non-empty timestamp list and no configured caption
(`settings.caption` is `None`), the overlay block does not complete — the
caption is passed to `cv2.getTextSize` unconditionally (line 411) and a
`TypeError` is raised on the very first frame, although the repository's
own configuration validation treats a missing caption as non-fatal.  The
run shown: one timestamp, frame 1 of 1. -/
theorem claim8_caption_none_raises :
    renderOverlays none 2 [0] 100 100 1 1 1 =
      Except.error "TypeError: bad argument type for built-in operation" ∧
    renderOverlays (some "CAPTION") 2 [0] 100 100 1 1 1 = Except.ok () := by
  have hidx : (overlayIndex 1 1 ([0] : List ℕ).length).toNat = 0 := by
    rw [overlayIndex]; norm_num
  constructor
  · rw [renderOverlays]
    simp only [hidx]
    rfl
  · rw [renderOverlays]
    simp only [hidx]
    rfl

/-- C9: for every non-empty timestamp list of length L and every frame of
a source with N ≥ 1 total frames, the overlay index
int(frame_position / N * (L − 1)) with 1 ≤ frame_position ≤ N lies in
[0, L − 1], so the timestamp lookup never indexes out of bounds (L = 1
always yields index 0). -/
theorem claim9_overlay_index_in_bounds (frame_position total_frames L : ℕ)
    (hfp : 1 ≤ frame_position) (hle : frame_position ≤ total_frames)
    (hN : 1 ≤ total_frames) (hL : 1 ≤ L) :
    0 ≤ overlayIndex frame_position total_frames L ∧
    overlayIndex frame_position total_frames L ≤ (L : ℤ) - 1 := by
  have hN0 : (0 : ℚ) < (total_frames : ℚ) := by exact_mod_cast hN
  have hL1 : (1 : ℚ) ≤ (L : ℚ) := by exact_mod_cast hL
  have hfrac0 : (0 : ℚ) ≤ (frame_position : ℚ) / (total_frames : ℚ) :=
    div_nonneg (by positivity) (le_of_lt hN0)
  have hfrac1 : (frame_position : ℚ) / (total_frames : ℚ) ≤ 1 :=
    (div_le_one hN0).mpr (by exact_mod_cast hle)
  constructor
  · rw [overlayIndex]
    exact Int.floor_nonneg.mpr (mul_nonneg hfrac0 (by linarith))
  · rw [overlayIndex]
    have hx : (frame_position : ℚ) / (total_frames : ℚ) * ((L : ℚ) - 1) ≤ (L : ℚ) - 1 := by
      calc (frame_position : ℚ) / (total_frames : ℚ) * ((L : ℚ) - 1)
          ≤ 1 * ((L : ℚ) - 1) := mul_le_mul_of_nonneg_right hfrac1 (by linarith)
        _ = (L : ℚ) - 1 := one_mul _
    have hcast : ((((L : ℤ) - 1 : ℤ)) : ℚ) = (L : ℚ) - 1 := by push_cast; ring
    calc ⌊(frame_position : ℚ) / (total_frames : ℚ) * ((L : ℚ) - 1)⌋
        ≤ ⌊(L : ℚ) - 1⌋ := Int.floor_le_floor hx
      _ = (L : ℤ) - 1 := by rw [← hcast, Int.floor_intCast]

/-- C9 (witness): frame 2 of 3 with 4 timestamps — the index is within
[0, 3]. -/
theorem claim9_overlay_index_in_bounds_witness :
    0 ≤ overlayIndex 2 3 4 ∧ overlayIndex 2 3 4 ≤ (4 : ℤ) - 1 :=
  claim9_overlay_index_in_bounds 2 3 4 (by decide) (by decide) (by decide) (by decide)

/-- C10 (counterexample): in the modelled America/New_York spring-forward
zone, the nonexistent local wall time 02:30 (−16200 s relative to the
transition on the local clock) does not round-trip:
`convert_GMT_to_local(convert_local_to_GMT(t))` lands on 03:30 (−12600 s),
one hour later — its wall-clock fields differ from `t`'s. -/
theorem claim10_counterexample :
    convert_GMT_to_local nySpring (convert_local_to_GMT nySpring (-16200)) = -12600 ∧
    (-12600 : ℤ) ≠ -16200 := by
  exact ⟨by decide, by decide⟩

/-- C10 (amended): for every timezone and naive local time `t`, the
round-trip value always denotes the same instant as `t` interpreted in
the local timezone under fold = 0 (reading the result at the offset in
effect at that instant recovers the instant), and its wall-clock fields
equal `t`'s exactly when the offset in effect at that instant equals the
offset used to interpret `t` — true for every `t` outside a DST
transition, and false inside a spring-forward gap. -/
theorem claim10_roundtrip_instant (tz : TZ) (t : ℤ) :
    convert_GMT_to_local tz (convert_local_to_GMT tz t) -
        tz.offsetAtInstant (convert_local_to_GMT tz t) = convert_local_to_GMT tz t ∧
    (convert_GMT_to_local tz (convert_local_to_GMT tz t) = t ↔
      tz.offsetAtInstant (convert_local_to_GMT tz t) = tz.offsetOfLocal t) := by
  rw [convert_GMT_to_local, convert_local_to_GMT]
  constructor
  · ring
  · omega
